import Mathlib

/-!
Verification development for the election-results scraper (`scraper.py`).

The program is a recursive fetch-and-cache traversal of a tree of JSON
documents.  We give a shallow embedding: the filesystem is an association
list from path strings to file contents, the network is a function from
url strings to fetch outcomes, and every observable action (network fetch,
rate-limit sleep, retry sleep, file write) is recorded in an event trace.
Unbounded loops (`while True` retry loops, and the recursion over a
dynamically discovered tree) are modelled with a fuel parameter; a result
of `none` means the fuel ran out, i.e. the Python code would still be
running.

Error model: Python exception classes are modelled by `Err`.  Crucially,
`json.JSONDecodeError` is a subclass of `ValueError` in Python, so an
`except ValueError:` handler catches both the `ValueError('Results not
available.')` raised by `load_or_download` on a network-response parse
failure and the `JSONDecodeError` raised by `json.load` on a corrupt
local file.  `isValueError` reflects that subclass relation.
-/

/-- Documents (parsed JSON values), restricted to the shapes the scraper
reads: node descriptors (with `srs`, `can`, `pps` fields), election
returns (whose `rs` rows are abstracted to their `cc` contest-code
values), and opaque documents (contest documents, canvass certificates)
whose fields the scraper never reads. -/
structure ChildRef where
  rn : String
  url : String
deriving DecidableEq

structure VBRef where
  url : String
deriving DecidableEq

structure TermRef where
  ppcc : String
  vbs : List VBRef
deriving DecidableEq

structure NodeInfo where
  srs : List ChildRef
  can : String
  pps : List TermRef
deriving DecidableEq

inductive Doc where
  | node (info : NodeInfo)
  | er (rs : List String)
  | other (tag : String)
deriving DecidableEq

/-- A file on disk: either a well-formed persisted document, or bytes
that fail to parse as JSON. -/
inductive FileContent where
  | good (d : Doc)
  | corrupt
deriving DecidableEq

/-- Python exception classes raised by the scraper.
`jsonDecode` is `json.JSONDecodeError` (raised by `json.load` on a
corrupt local file), `valueError` is the `ValueError('Results not
available.')` raised on a network-response parse failure, `keyError` is
a `KeyError` from a missing document field, `assertionError` an
`assert` failure, `netError` any non-JSON error raised by `sess.get`. -/
inductive Err where
  | jsonDecode
  | valueError
  | keyError
  | assertionError
  | netError
deriving DecidableEq

/-- `except ValueError:` in Python catches `ValueError` and its
subclasses, which include `json.JSONDecodeError`. -/
def isValueError : Err → Bool
  | Err.jsonDecode => true
  | Err.valueError => true
  | _ => false

/-- Outcome of `sess.get(url)` followed by `.json()`: a parsed document,
a JSON-parse failure of the response body, or any other network error. -/
inductive FetchOutcome where
  | ok (d : Doc)
  | parseFail
  | netError
deriving DecidableEq

/-- The upstream service, assumed unchanged for the duration considered:
a fixed mapping from url to fetch outcome. -/
def Net : Type := String → FetchOutcome

/-- Observable events, in program order: a network fetch of a url, the
post-download rate-limit sleep (`time.sleep(download_delay)`), the
retry-backoff sleep (`time.sleep(RETRY_WAIT)`), and a file write. -/
inductive Ev where
  | fetch (url : String)
  | sleepDl
  | sleepRetry
  | write (path : String)
deriving DecidableEq

/-- Program state: the local storage tree and the event trace so far. -/
structure St where
  fs : List (String × FileContent)
  events : List Ev
deriving DecidableEq

/-- Lookup of a path in the storage tree (`os.path.exists` + read). -/
def lookupFs : List (String × FileContent) → String → Option FileContent
  | [], _ => none
  | (q, c) :: rest, p => if q = p then some c else lookupFs rest p

/-- Write a file, overwriting any existing file at that path. -/
def setFs : List (String × FileContent) → String → FileContent → List (String × FileContent)
  | [], p, c => [(p, c)]
  | (q, d) :: rest, p, c => if q = p then (q, c) :: rest else (q, d) :: setFs rest p c

def hasFile (fs : List (String × FileContent)) (p : String) : Bool :=
  (lookupFs fs p).isSome

/-- Python `str.replace` with a single-character pattern and
single-character replacement: replace every occurrence. -/
def replaceChar (c r : Char) (s : String) : String :=
  String.mk (s.data.map (fun a => if a = c then r else a))

/-- `file_path.replace("*", "_")` — sanitization applied to the storage
path just before the file is written (line 34 of the source). -/
def sanitizeStar (s : String) : String := replaceChar '*' '_' s

/-- `posixpath.join` of two components, as in CPython: if the second
starts with the separator it wins; an empty or separator-terminated
accumulator is extended without inserting a separator. -/
def pjoin2 (a b : String) : String :=
  if b.data.head? = some '/' then b
  else if a = "" ∨ a.data.getLast? = some '/' then a ++ b
  else a ++ "/" ++ b

/-- `os.path.join(x, y, z, ...)`. -/
def pjoin : List String → String
  | [] => ""
  | x :: xs => xs.foldl pjoin2 x

/-- `urljoin = lambda *args: '/'.join(args)` (line 16 of the source). -/
def urljoin : List String → String
  | [] => ""
  | x :: xs => xs.foldl (fun acc y => acc ++ "/" ++ y) x

def BASE_URL : String := "https://2022electionresults.comelec.gov.ph/data"

def BASE_DIR : String := "data"

/-- Accessing `doc['srs']` / `doc['can']` / `doc['pps']`: succeeds only
on a node descriptor; on any other document the subscript raises
(`KeyError`), modelled by `Err.keyError`. -/
def getNode : Doc → Except Err NodeInfo
  | Doc.node i => Except.ok i
  | _ => Except.error Err.keyError

/-- Accessing `doc['rs']` of an election return. -/
def getRs : Doc → Except Err (List String)
  | Doc.er rs => Except.ok rs
  | _ => Except.error Err.keyError

/--
`load_or_download(sess, file_path, url, download_delay)` (lines 18-39):
read `file_path` if it exists, download from `url` if it doesn't.

* file exists and parses: return its content, no other effect;
* file exists but corrupt: `json.load` raises `JSONDecodeError`,
  uncaught here (the `try` block starts after the existence test);
* file absent: `sess.get(url).json()`; on parse failure of the response
  the `except json.JSONDecodeError` handler raises
  `ValueError('Results not available.')` — note that
  `time.sleep(download_delay)` is *not* reached in that case; on success
  sleep, sanitize the path (`replace("*", "_")`), and write the file.
-/
def load_or_download (net : Net) (file_path url : String) (s : St) :
    Except Err Doc × St :=
  match lookupFs s.fs file_path with
  | some (FileContent.good d) => (Except.ok d, s)
  | some FileContent.corrupt => (Except.error Err.jsonDecode, s)
  | none =>
    match net url with
    | FetchOutcome.ok d =>
      let fp := sanitizeStar file_path
      (Except.ok d,
        { fs := setFs s.fs fp (FileContent.good d),
          events := s.events ++ [Ev.fetch url, Ev.sleepDl, Ev.write fp] })
    | FetchOutcome.parseFail =>
      (Except.error Err.valueError, { s with events := s.events ++ [Ev.fetch url] })
    | FetchOutcome.netError =>
      (Except.error Err.netError, { s with events := s.events ++ [Ev.fetch url] })

/--
The `while True: try: ...; break; except ValueError: sleep(RETRY_WAIT)`
wrapper used at the node-descriptor call site (lines 59-66) and the
contest call site (lines 95-104).  `except ValueError` catches the
recoverable `ValueError` *and* its subclass `JSONDecodeError`.  `none`
means the loop is still running when the fuel runs out.
-/
def retryResolve (net : Net) : Nat → String → String → St → Option (Except Err Doc × St)
  | 0, _, _, _ => none
  | fuel + 1, path, url, s =>
    match load_or_download net path url s with
    | (Except.ok d, s1) => some (Except.ok d, s1)
    | (Except.error e, s1) =>
      if isValueError e then
        retryResolve net fuel path url { s1 with events := s1.events ++ [Ev.sleepRetry] }
      else some (Except.error e, s1)

/-- Storage path of a node descriptor:
`os.path.join(BASE_DIR, 'results', node_dir, 'info.json')`. -/
def infoPath (node_dir : String) : String :=
  pjoin [BASE_DIR, "results", node_dir, "info.json"]

/-- Url of a node descriptor: `urljoin(BASE_URL, 'regions', node_url)`. -/
def infoUrl (node_url : String) : String :=
  urljoin [BASE_URL, "regions", node_url]

/-- Storage path of a leaf election return:
`os.path.join(BASE_DIR, 'results', node_dir, ppcc + '.json')`. -/
def precinctPath (node_dir ppcc : String) : String :=
  pjoin [BASE_DIR, "results", node_dir, ppcc ++ ".json"]

/-- Url of a terminal payload:
`urljoin(BASE_URL, 'results', vburl + '.json')`. -/
def resultsUrl (vburl : String) : String :=
  urljoin [BASE_URL, "results", vburl ++ ".json"]

/-- Flat storage path of a contest document:
`os.path.join(BASE_DIR, 'contests', contest + '.json')`. -/
def contestPath (contest : String) : String :=
  pjoin [BASE_DIR, "contests", contest ++ ".json"]

/-- Url of a contest document:
`urljoin(BASE_URL, 'contests', contest + '.json')`. -/
def contestUrl (contest : String) : String :=
  urljoin [BASE_URL, "contests", contest ++ ".json"]

/-- Storage path of a canvass certificate:
`os.path.join(BASE_DIR, 'results', node_dir, 'coc.json')` — computed
inside the loop but independent of the loop variable. -/
def cocPath (node_dir : String) : String :=
  pjoin [BASE_DIR, "results", node_dir, "coc.json"]

/-- `set(map(itemgetter('cc'), rows))`: the distinct contest codes.  A
Python `set` iterates in an unspecified order; we fix first-occurrence
order, which no claim depends on. -/
def dedupAux (seen : List String) : List String → List String
  | [] => []
  | x :: xs => if seen.contains x then dedupAux seen xs
               else x :: dedupAux (x :: seen) xs

def dedup (xs : List String) : List String := dedupAux [] xs

/-- The `for contest in contests:` loop (lines 90-104): each contest
document is resolved through the indefinitely retrying wrapper. -/
def contestLoop (net : Net) (fuel : Nat) : List String → St → Option (Except Err Unit × St)
  | [], s => some (Except.ok (), s)
  | c :: cs, s =>
    match retryResolve net fuel (contestPath c) (contestUrl c) s with
    | none => none
    | some (Except.ok _, s1) => contestLoop net fuel cs s1
    | some (Except.error e, s1) => some (Except.error e, s1)

/-- The `for precinct in node_info['pps']:` loop of the Barangay branch
(lines 75-104): assert exactly one voting-board reference, resolve the
election return with a single attempt (`except ValueError: continue`
skips the reference), then fetch the referenced contests. -/
def precinctLoop (net : Net) (fuel : Nat) (node_dir : String) :
    List TermRef → St → Option (Except Err Unit × St)
  | [], s => some (Except.ok (), s)
  | p :: rest, s =>
    match p.vbs with
    | [vb] =>
      match load_or_download net (precinctPath node_dir p.ppcc) (resultsUrl vb.url) s with
      | (Except.error e, s1) =>
        if isValueError e then precinctLoop net fuel node_dir rest s1
        else some (Except.error e, s1)
      | (Except.ok d, s1) =>
        match getRs d with
        | Except.error e => some (Except.error e, s1)
        | Except.ok rs =>
          match contestLoop net fuel (dedup rs) s1 with
          | none => none
          | some (Except.ok _, s2) => precinctLoop net fuel node_dir rest s2
          | some (Except.error e, s2) => some (Except.error e, s2)
    | _ => some (Except.error Err.assertionError, s)

/-- The `for coc in node_info['pps']:` loop of the non-leaf branch
(lines 110-118): the storage path is the same `coc.json` for every
reference; a single resolution attempt per reference, skipping on
`ValueError`. -/
def cocLoop (net : Net) (node_dir : String) :
    List TermRef → St → Except Err Unit × St
  | [], s => (Except.ok (), s)
  | p :: rest, s =>
    match p.vbs with
    | [vb] =>
      match load_or_download net (cocPath node_dir) (resultsUrl vb.url) s with
      | (Except.error e, s1) =>
        if isValueError e then cocLoop net node_dir rest s1
        else (Except.error e, s1)
      | (Except.ok _, s1) => cocLoop net node_dir rest s1
    | _ => (Except.error Err.assertionError, s)

/-- Terminal-data handling of one node (lines 74-118): the Barangay
branch runs the precinct loop; otherwise
`assert node_info['can'] == 'Country' or len(node_info['pps']) < 2`
and then the canvass-certificate loop. -/
def terminalPhase (net : Net) (fuel : Nat) (node_dir : String) (info : NodeInfo) (s : St) :
    Option (Except Err Unit × St) :=
  if info.can = "Barangay" then
    precinctLoop net fuel node_dir info.pps s
  else if info.can = "Country" ∨ info.pps.length < 2 then
    some (cocLoop net node_dir info.pps s)
  else some (Except.error Err.assertionError, s)

/-- The `for child in node_info['srs'].values():` loop (lines 69-72),
parameterized by the recursive step so that the recursion is carried by
the fuel of `download_data`.  The child storage sub-path appends the
`/`-sanitized `rn`, the child locator appends `.json`. -/
def childrenLoop (step : String → String → St → Option (Except Err Unit × St))
    (node_dir : String) :
    List ChildRef → St → Option (Except Err Unit × St)
  | [], s => some (Except.ok (), s)
  | ch :: rest, s =>
    match step (pjoin [node_dir, replaceChar '/' '_' ch.rn]) (ch.url ++ ".json") s with
    | none => none
    | some (Except.error e, s1) => some (Except.error e, s1)
    | some (Except.ok _, s1) => childrenLoop step node_dir rest s1

/-- `download_data(sess, node_dir, node_url, download_delay)`
(lines 41-118): resolve this node's descriptor through the retrying
wrapper, recurse into all children, then handle terminal data. -/
def download_data (net : Net) : Nat → String → String → St → Option (Except Err Unit × St)
  | 0, _, _, _ => none
  | fuel + 1, node_dir, node_url, s =>
    match retryResolve net (fuel + 1) (infoPath node_dir) (infoUrl node_url) s with
    | none => none
    | some (Except.error e, s1) => some (Except.error e, s1)
    | some (Except.ok doc, s1) =>
      match getNode doc with
      | Except.error e => some (Except.error e, s1)
      | Except.ok info =>
        match childrenLoop (fun d u st => download_data net fuel d u st) node_dir info.srs s1 with
        | none => none
        | some (Except.error e, s2) => some (Except.error e, s2)
        | some (Except.ok _, s2) => terminalPhase net (fuel + 1) node_dir info s2

/-- The command-line entry point (lines 120-138).  The function receives
the `--base-dir` option but its body only rebinds a *local* variable
`BASE_DIR = 'data'`; the module-level `BASE_DIR` read by the traversal
is unchanged, so the argument has no effect on where files are stored.
The traversal starts at storage sub-path `''` and locator `'root.json'`. -/
def main_run (base_dir : String) (net : Net) (fuel : Nat) :
    Option (Except Err Unit × St) :=
  let _local_BASE_DIR := "data"
  download_data net fuel "" "root.json" { fs := [], events := [] }

/-- Number of fetch events for a given url in a trace. -/
def countFetch (u : String) : List Ev → Nat
  | [] => 0
  | Ev.fetch v :: rest => (if v = u then 1 else 0) + countFetch u rest
  | _ :: rest => countFetch u rest

/-- Event trace of a finished run (`[]` when the fuel ran out). -/
def getEvents : Option (Except Err Unit × St) → List Ev
  | none => []
  | some (_, s) => s.events

/-- Storage tree of a finished run (`[]` when the fuel ran out). -/
def getFs : Option (Except Err Unit × St) → List (String × FileContent)
  | none => []
  | some (_, s) => s.fs

/-- A network on which every request raises a connection error; used to
demonstrate that certain paths never reach the network. -/
def anyNet : Net := fun _ => FetchOutcome.netError

/-- A network on which every response fails to parse as JSON. -/
def parseNet : Net := fun _ => FetchOutcome.parseFail

/-- Upstream for the resumability scenario: the root is a leaf
(`Barangay`) node with one precinct whose identifier `P*1` contains a
`*`, and whose election return has no result rows. -/
def c1net : Net := fun u =>
  if u = infoUrl "root.json" then
    FetchOutcome.ok (Doc.node ⟨[], "Barangay", [⟨"P*1", [⟨"r1"⟩]⟩]⟩)
  else if u = resultsUrl "r1" then FetchOutcome.ok (Doc.er [])
  else FetchOutcome.parseFail

/-- The storage tree produced by a complete run against `c1net`. -/
def c1fs : List (String × FileContent) :=
  [("data/results/info.json",
    FileContent.good (Doc.node ⟨[], "Barangay", [⟨"P*1", [⟨"r1"⟩]⟩]⟩)),
   ("data/results/P_1.json", FileContent.good (Doc.er []))]

/-- Upstream with a single childless `Country` root node. -/
def c9net : Net := fun u =>
  if u = infoUrl "root.json" then FetchOutcome.ok (Doc.node ⟨[], "Country", []⟩)
  else FetchOutcome.parseFail

/-- Upstream for the canvass-certificate scenario: the root has one
child named `X*` (a name containing `*`, which child-name sanitization
does not touch — only `/` is replaced), and that child is a `Country`
node with two terminal-data references. -/
def c10net : Net := fun u =>
  if u = infoUrl "root.json" then
    FetchOutcome.ok (Doc.node ⟨[⟨"X*", "x"⟩], "Region", []⟩)
  else if u = infoUrl "x.json" then
    FetchOutcome.ok (Doc.node ⟨[], "Country", [⟨"a", [⟨"c1"⟩]⟩, ⟨"b", [⟨"c2"⟩]⟩]⟩)
  else if u = resultsUrl "c1" then FetchOutcome.ok (Doc.other "coc1")
  else if u = resultsUrl "c2" then FetchOutcome.ok (Doc.other "coc2")
  else FetchOutcome.parseFail

/-- A finished run over `c10net`. -/
def c10run : Option (Except Err Unit × St) :=
  download_data c10net 3 "" "root.json" { fs := [], events := [] }

/-- Upstream for contest dedup with a `*` in the contest identifier:
a leaf root with two precincts whose election returns both reference
contest `7*7`. -/
def c8badnet : Net := fun u =>
  if u = infoUrl "root.json" then
    FetchOutcome.ok (Doc.node ⟨[], "Barangay", [⟨"p1", [⟨"e1"⟩]⟩, ⟨"p2", [⟨"e2"⟩]⟩]⟩)
  else if u = resultsUrl "e1" then FetchOutcome.ok (Doc.er ["7*7"])
  else if u = resultsUrl "e2" then FetchOutcome.ok (Doc.er ["7*7"])
  else if u = contestUrl "7*7" then FetchOutcome.ok (Doc.other "contest")
  else FetchOutcome.parseFail

/-- A finished run over `c8badnet`. -/
def c8badrun : Option (Except Err Unit × St) :=
  download_data c8badnet 3 "" "root.json" { fs := [], events := [] }

/-- The end-to-end scenario of the specification: a `Region` root with
one child `A`; the child is a leaf with one terminal-data reference
whose payload lists contest `700` twice. -/
def c8net : Net := fun u =>
  if u = infoUrl "root.json" then
    FetchOutcome.ok (Doc.node ⟨[⟨"A", "a"⟩], "Region", []⟩)
  else if u = infoUrl "a.json" then
    FetchOutcome.ok (Doc.node ⟨[], "Barangay", [⟨"pr", [⟨"res1"⟩]⟩]⟩)
  else if u = resultsUrl "res1" then FetchOutcome.ok (Doc.er ["700", "700"])
  else if u = contestUrl "700" then FetchOutcome.ok (Doc.other "contest700")
  else FetchOutcome.parseFail

/-- A finished run over `c8net`. -/
def c8run : Option (Except Err Unit × St) :=
  download_data c8net 3 "" "root.json" { fs := [], events := [] }

/-- The final state of the run over `c8net`, spelled out. -/
def c8finSt : St :=
  { fs := [("data/results/info.json",
            FileContent.good (Doc.node ⟨[⟨"A", "a"⟩], "Region", []⟩)),
           ("data/results/A/info.json",
            FileContent.good (Doc.node ⟨[], "Barangay", [⟨"pr", [⟨"res1"⟩]⟩]⟩)),
           ("data/results/A/pr.json", FileContent.good (Doc.er ["700", "700"])),
           ("data/contests/700.json", FileContent.good (Doc.other "contest700"))],
    events := [Ev.fetch (infoUrl "root.json"), Ev.sleepDl,
               Ev.write "data/results/info.json",
               Ev.fetch (infoUrl "a.json"), Ev.sleepDl,
               Ev.write "data/results/A/info.json",
               Ev.fetch (resultsUrl "res1"), Ev.sleepDl,
               Ev.write "data/results/A/pr.json",
               Ev.fetch (contestUrl "700"), Ev.sleepDl,
               Ev.write "data/contests/700.json"] }

/-- A storage state holding a corrupt election-return file. -/
def c2st : St := { fs := [(precinctPath "" "pp", FileContent.corrupt)], events := [] }

/-- A storage state holding a corrupt node-descriptor file. -/
def c4st : St := { fs := [(infoPath "", FileContent.corrupt)], events := [] }

/-! ## Basic lemmas about the storage map and the resolver -/

theorem lookupFs_setFs (fs : List (String × FileContent)) (p q : String) (c : FileContent) :
    lookupFs (setFs fs p c) q = if p = q then some c else lookupFs fs q := by
  induction fs with
  | nil => simp [setFs, lookupFs]
  | cons kv rest ih =>
    obtain ⟨k, v⟩ := kv
    by_cases hk : k = p
    · subst hk
      by_cases hq : k = q <;> simp [setFs, lookupFs, hq]
    · by_cases hq : k = q
      · subst hq
        simp [setFs, lookupFs, hk]
        rw [if_neg (fun h => hk h.symm)]
      · simp [setFs, lookupFs, hk, hq, ih]

theorem hasFile_setFs_mono (fs : List (String × FileContent)) (p q : String)
    (c : FileContent) (h : hasFile fs q = true) : hasFile (setFs fs p c) q = true := by
  unfold hasFile at *
  rw [lookupFs_setFs]
  by_cases hpq : p = q <;> simp [hpq]
  · simpa [hpq] using h

theorem hasFile_setFs_self (fs : List (String × FileContent)) (p : String)
    (c : FileContent) : hasFile (setFs fs p c) p = true := by
  unfold hasFile
  rw [lookupFs_setFs]
  simp

/-- Cache hit on a well-formed file: the stored content is returned and
the state — network trace included — is untouched (lines 21-24). -/
theorem load_cache_good (net : Net) (p u : String) (s : St) (d : Doc)
    (h : lookupFs s.fs p = some (FileContent.good d)) :
    load_or_download net p u s = (Except.ok d, s) := by
  unfold load_or_download
  rw [h]

/-- Cache hit on a corrupt file: `json.load` raises `JSONDecodeError`,
with no network fetch and no state change. -/
theorem load_cache_corrupt (net : Net) (p u : String) (s : St)
    (h : lookupFs s.fs p = some FileContent.corrupt) :
    load_or_download net p u s = (Except.error Err.jsonDecode, s) := by
  unfold load_or_download
  rw [h]

/-- Cache miss, response parses: fetch, sleep the download delay, then
write the `*`-sanitized path. -/
theorem load_dl_ok (net : Net) (p u : String) (s : St) (d : Doc)
    (h1 : lookupFs s.fs p = none) (h2 : net u = FetchOutcome.ok d) :
    load_or_download net p u s =
      (Except.ok d,
       { fs := setFs s.fs (sanitizeStar p) (FileContent.good d),
         events := s.events ++ [Ev.fetch u, Ev.sleepDl, Ev.write (sanitizeStar p)] }) := by
  unfold load_or_download
  rw [h1, h2]

/-- Cache miss, response fails to parse: the fetch is recorded, no
download-delay sleep happens, no file is written, and
`ValueError('Results not available.')` is raised. -/
theorem load_dl_parseFail (net : Net) (p u : String) (s : St)
    (h1 : lookupFs s.fs p = none) (h2 : net u = FetchOutcome.parseFail) :
    load_or_download net p u s =
      (Except.error Err.valueError, { s with events := s.events ++ [Ev.fetch u] }) := by
  unfold load_or_download
  rw [h1, h2]

/-- Cache miss, other network error: it propagates as raised. -/
theorem load_dl_netError (net : Net) (p u : String) (s : St)
    (h1 : lookupFs s.fs p = none) (h2 : net u = FetchOutcome.netError) :
    load_or_download net p u s =
      (Except.error Err.netError, { s with events := s.events ++ [Ev.fetch u] }) := by
  unfold load_or_download
  rw [h1, h2]

/-! ## Lemmas about the retry wrapper -/

/-- A successful attempt ends the retry loop. -/
theorem retry_ok (net : Net) (fuel : Nat) (p u : String) (s s1 : St) (d : Doc)
    (h : load_or_download net p u s = (Except.ok d, s1)) :
    retryResolve net (fuel + 1) p u s = some (Except.ok d, s1) := by
  unfold retryResolve
  rw [h]

/-- An attempt that raises inside the `ValueError` class (which includes
`JSONDecodeError`) makes the loop sleep `RETRY_WAIT` and try again. -/
theorem retry_recoverable (net : Net) (fuel : Nat) (p u : String) (s s1 : St) (e : Err)
    (h : load_or_download net p u s = (Except.error e, s1))
    (hv : isValueError e = true) :
    retryResolve net (fuel + 1) p u s =
      retryResolve net fuel p u { fs := s1.fs, events := s1.events ++ [Ev.sleepRetry] } := by
  simp only [retryResolve]
  rw [h]
  simp [hv]

/-- An attempt that raises outside the `ValueError` class propagates
out of the retry loop immediately. -/
theorem retry_propagate (net : Net) (fuel : Nat) (p u : String) (s s1 : St) (e : Err)
    (h : load_or_download net p u s = (Except.error e, s1))
    (hv : isValueError e = false) :
    retryResolve net (fuel + 1) p u s = some (Except.error e, s1) := by
  unfold retryResolve
  rw [h]
  simp [hv]

/-- Against an unchanged upstream whose response for `u` never parses,
the retry loop never terminates: the file is absent, every attempt
raises the recoverable error, and the loop runs out of any fuel. -/
theorem retry_stuck_parseFail (net : Net) (p u : String)
    (h2 : net u = FetchOutcome.parseFail) :
    ∀ (fuel : Nat) (s : St), lookupFs s.fs p = none →
      retryResolve net fuel p u s = none := by
  intro fuel
  induction fuel with
  | zero => intro s _; rfl
  | succ n ih =>
    intro s h1
    rw [retry_recoverable net n p u s _ Err.valueError
      (load_dl_parseFail net p u s h1 h2) rfl]
    exact ih _ h1

/-- A corrupt local file also keeps the retry loop spinning forever:
each attempt raises `JSONDecodeError`, a `ValueError` subclass, which
the `except ValueError` handler catches; the file never changes. -/
theorem retry_stuck_corrupt (net : Net) (p u : String) :
    ∀ (fuel : Nat) (s : St), lookupFs s.fs p = some FileContent.corrupt →
      retryResolve net fuel p u s = none := by
  intro fuel
  induction fuel with
  | zero => intro s _; rfl
  | succ n ih =>
    intro s h1
    rw [retry_recoverable net n p u s _ Err.jsonDecode
      (load_cache_corrupt net p u s h1) rfl]
    exact ih _ h1

/-! ## Lemmas about the terminal-data loops -/

/-- At a leaf terminal-data call site, a failure inside the `ValueError`
class makes the loop `continue` with the next reference — a single
attempt, no retry, no propagation. -/
theorem precinct_skip (net : Net) (fuel : Nat) (dir id : String) (vb : VBRef)
    (rest : List TermRef) (s s1 : St) (e : Err)
    (h : load_or_download net (precinctPath dir id) (resultsUrl vb.url) s =
      (Except.error e, s1))
    (hv : isValueError e = true) :
    precinctLoop net fuel dir (⟨id, [vb]⟩ :: rest) s =
      precinctLoop net fuel dir rest s1 := by
  simp only [precinctLoop]
  rw [h]
  simp [hv]

/-- At a leaf terminal-data call site, an error outside the `ValueError`
class propagates. -/
theorem precinct_propagate (net : Net) (fuel : Nat) (dir id : String) (vb : VBRef)
    (rest : List TermRef) (s s1 : St) (e : Err)
    (h : load_or_download net (precinctPath dir id) (resultsUrl vb.url) s =
      (Except.error e, s1))
    (hv : isValueError e = false) :
    precinctLoop net fuel dir (⟨id, [vb]⟩ :: rest) s =
      some (Except.error e, s1) := by
  simp only [precinctLoop]
  rw [h]
  simp [hv]

/-- A terminal-data reference whose voting-board list is not a singleton
fails the `assert len(precinct['vbs']) == 1` before any fetch. -/
theorem precinct_assert (net : Net) (fuel : Nat) (dir id : String) (vbs : List VBRef)
    (rest : List TermRef) (s : St) (hv : vbs.length ≠ 1) :
    precinctLoop net fuel dir (⟨id, vbs⟩ :: rest) s =
      some (Except.error Err.assertionError, s) := by
  match vbs with
  | [] => rfl
  | [v] => exact absurd rfl hv
  | v :: w :: t => rfl

/-- Same single-attempt skip at the canvass-certificate call site. -/
theorem coc_skip (net : Net) (dir id : String) (vb : VBRef)
    (rest : List TermRef) (s s1 : St) (e : Err)
    (h : load_or_download net (cocPath dir) (resultsUrl vb.url) s = (Except.error e, s1))
    (hv : isValueError e = true) :
    cocLoop net dir (⟨id, [vb]⟩ :: rest) s = cocLoop net dir rest s1 := by
  simp only [cocLoop]
  rw [h]
  simp [hv]

/-- Errors outside the `ValueError` class propagate from the
canvass-certificate call site. -/
theorem coc_propagate (net : Net) (dir id : String) (vb : VBRef)
    (rest : List TermRef) (s s1 : St) (e : Err)
    (h : load_or_download net (cocPath dir) (resultsUrl vb.url) s = (Except.error e, s1))
    (hv : isValueError e = false) :
    cocLoop net dir (⟨id, [vb]⟩ :: rest) s = (Except.error e, s1) := by
  simp only [cocLoop]
  rw [h]
  simp [hv]

/-- A successfully resolved canvass-certificate reference moves on to
the next reference. -/
theorem coc_ok (net : Net) (dir id : String) (vb : VBRef)
    (rest : List TermRef) (s s1 : St) (d : Doc)
    (h : load_or_download net (cocPath dir) (resultsUrl vb.url) s = (Except.ok d, s1)) :
    cocLoop net dir (⟨id, [vb]⟩ :: rest) s = cocLoop net dir rest s1 := by
  simp only [cocLoop]
  rw [h]

/-- `assert len(coc['vbs']) == 1` at the canvass-certificate site. -/
theorem coc_assert (net : Net) (dir id : String) (vbs : List VBRef)
    (rest : List TermRef) (s : St) (hv : vbs.length ≠ 1) :
    cocLoop net dir (⟨id, vbs⟩ :: rest) s = (Except.error Err.assertionError, s) := by
  match vbs with
  | [] => rfl
  | [v] => exact absurd rfl hv
  | v :: w :: t => rfl

/-- `assert node_info['can'] == 'Country' or len(node_info['pps']) < 2`:
a node that is neither the leaf level nor `Country` with two or more
terminal-data references fails the assertion before any resolution. -/
theorem terminal_assert (net : Net) (fuel : Nat) (dir : String) (info : NodeInfo) (s : St)
    (h1 : info.can ≠ "Barangay") (h2 : info.can ≠ "Country")
    (h3 : 2 ≤ info.pps.length) :
    terminalPhase net fuel dir info s = some (Except.error Err.assertionError, s) := by
  have h4 : ¬ (info.pps.length < 2) := by omega
  simp [terminalPhase, h1, h2, h4]

/-- Once a well-formed file sits at `<node>/coc.json`, the whole
canvass-certificate loop is answered from that file: no fetch, no
event, no state change — for *every* remaining reference, since they
all resolve to the same storage path. -/
theorem coc_cached (net : Net) (dir : String) :
    ∀ (pps : List TermRef) (s : St) (d : Doc),
      lookupFs s.fs (cocPath dir) = some (FileContent.good d) →
      (∀ p ∈ pps, p.vbs.length = 1) →
      cocLoop net dir pps s = (Except.ok (), s) := by
  intro pps
  induction pps with
  | nil => intro s d _ _; rfl
  | cons p rest ih =>
    intro s d h hv
    obtain ⟨vb, hvb⟩ : ∃ vb, p.vbs = [vb] := by
      have h1 := hv p (by simp)
      match hp : p.vbs with
      | [] => rw [hp] at h1; simp at h1
      | [a] => exact ⟨a, rfl⟩
      | a :: b :: t => rw [hp] at h1; simp at h1
    obtain ⟨id, vbs⟩ := p
    simp only at hvb
    subst hvb
    rw [coc_ok net dir id vb rest s s d (load_cache_good net _ _ s d h)]
    exact ih s d h (fun q hq => hv q (by simp [hq]))

/-- First-success behaviour of the canvass-certificate loop: when the
file is absent, its path contains no `*` (so the sanitized write path
coincides with the probed path), and the head reference's payload is
available, exactly one fetch happens and every later reference is
answered from the written file with no further network traffic. -/
theorem coc_first_success (net : Net) (dir id : String) (vb : VBRef)
    (rest : List TermRef) (s : St) (d : Doc)
    (habs : lookupFs s.fs (cocPath dir) = none)
    (hsan : sanitizeStar (cocPath dir) = cocPath dir)
    (hnet : net (resultsUrl vb.url) = FetchOutcome.ok d)
    (hrest : ∀ p ∈ rest, p.vbs.length = 1) :
    cocLoop net dir (⟨id, [vb]⟩ :: rest) s =
      (Except.ok (),
       { fs := setFs s.fs (cocPath dir) (FileContent.good d),
         events := s.events ++
           [Ev.fetch (resultsUrl vb.url), Ev.sleepDl, Ev.write (cocPath dir)] }) := by
  have hl := load_dl_ok net (cocPath dir) (resultsUrl vb.url) s d habs hnet
  rw [hsan] at hl
  rw [coc_ok net dir id vb rest s _ d hl]
  exact coc_cached net dir rest _ d (by rw [lookupFs_setFs]; simp) hrest

/-! ## Url shapes

The three kinds of urls the traversal fetches live in disjoint
namespaces: node descriptors under `<base>/regions/`, terminal payloads
under `<base>/results/`, contest documents under `<base>/contests/`.
The joins are plain string concatenation, so this is provable from the
literals: the three prefixes first differ at character index 48. -/

theorem infoUrl_eq (nu : String) : infoUrl nu =
    "https://2022electionresults.comelec.gov.ph/data/regions/" ++ nu := rfl

theorem resultsUrl_eq (v : String) : resultsUrl v =
    "https://2022electionresults.comelec.gov.ph/data/results/" ++ (v ++ ".json") := rfl

theorem contestUrl_eq (c : String) : contestUrl c =
    "https://2022electionresults.comelec.gov.ph/data/contests/" ++ (c ++ ".json") := rfl

/-- Two appends to closed strings that disagree at a position inside
both closed parts are never equal. -/
theorem append_ne_of_getElem (p1 p2 : String) (n : Nat)
    (h1 : n < p1.data.length) (h2 : n < p2.data.length)
    (hne : p1.data[n]? ≠ p2.data[n]?) (x y : String) :
    p1 ++ x ≠ p2 ++ y := by
  intro h
  apply hne
  have hd : p1.data ++ x.data = p2.data ++ y.data := by
    rw [← String.data_append, ← String.data_append]
    exact congrArg String.data h
  calc p1.data[n]? = (p1.data ++ x.data)[n]? := (List.getElem?_append_left h1).symm
    _ = (p2.data ++ y.data)[n]? := by rw [hd]
    _ = p2.data[n]? := List.getElem?_append_left h2

theorem infoUrl_ne_contestUrl (nu c : String) : infoUrl nu ≠ contestUrl c := by
  rw [infoUrl_eq, contestUrl_eq]
  exact append_ne_of_getElem _ _ 48 (by decide) (by decide) (by decide) _ _

theorem resultsUrl_ne_contestUrl (v c : String) : resultsUrl v ≠ contestUrl c := by
  rw [resultsUrl_eq, contestUrl_eq]
  exact append_ne_of_getElem _ _ 48 (by decide) (by decide) (by decide) _ _

/-- Contest urls are injective in the contest identifier. -/
theorem contestUrl_inj (a b : String) (h : contestUrl a = contestUrl b) : a = b := by
  rw [contestUrl_eq, contestUrl_eq] at h
  have hd := congrArg String.data h
  rw [String.data_append, String.data_append, String.data_append,
      String.data_append] at hd
  exact String.ext (List.append_cancel_right (List.append_cancel_left hd))

/-! ## The single-fetch invariant for a protected contest

`GInv u0 p0 s s'` relates the state before and after running any piece
of the traversal, for the protected pair `u0 = contestUrl X`,
`p0 = contestPath X`: the trace only grows; files never disappear; if
the contest file is already present no fetch of its url ever happens;
and if it is absent, at most one fetch of its url happens, and any
fetch of it leaves the file present (so no later fetch can happen). -/
def GInv (u0 p0 : String) (s s' : St) : Prop :=
  (∃ t, s'.events = s.events ++ t) ∧
  (∀ q, hasFile s.fs q = true → hasFile s'.fs q = true) ∧
  (hasFile s.fs p0 = true → countFetch u0 s'.events = countFetch u0 s.events) ∧
  (hasFile s.fs p0 = false →
    countFetch u0 s'.events ≤ countFetch u0 s.events + 1 ∧
    (hasFile s'.fs p0 = false → countFetch u0 s'.events = countFetch u0 s.events))

theorem countFetch_append (u : String) (a b : List Ev) :
    countFetch u (a ++ b) = countFetch u a + countFetch u b := by
  induction a with
  | nil => simp [countFetch]
  | cons e rest ih =>
    cases e with
    | fetch v => simp [countFetch, ih]; omega
    | sleepDl => simp [countFetch, ih]
    | sleepRetry => simp [countFetch, ih]
    | write p => simp [countFetch, ih]

theorem GInv_refl (u0 p0 : String) (s : St) : GInv u0 p0 s s :=
  ⟨⟨[], by simp⟩, fun _ h => h, fun _ => rfl, fun _ => ⟨by omega, fun _ => rfl⟩⟩

theorem GInv_trans (u0 p0 : String) (s s' s'' : St)
    (h1 : GInv u0 p0 s s') (h2 : GInv u0 p0 s' s'') : GInv u0 p0 s s'' := by
  obtain ⟨⟨t1, he1⟩, hm1, hp1, ha1⟩ := h1
  obtain ⟨⟨t2, he2⟩, hm2, hp2, ha2⟩ := h2
  refine ⟨⟨t1 ++ t2, by rw [he2, he1, List.append_assoc]⟩,
    fun q h => hm2 q (hm1 q h), ?_, ?_⟩
  · intro hp
    rw [hp2 (hm1 p0 hp), hp1 hp]
  · intro hp
    cases hsp : hasFile s'.fs p0 with
    | true =>
      refine ⟨by rw [hp2 hsp]; exact (ha1 hp).1, ?_⟩
      intro hq
      have hcontra := hm2 p0 hsp
      rw [hq] at hcontra
      simp at hcontra
    | false =>
      have heq1 : countFetch u0 s'.events = countFetch u0 s.events := (ha1 hp).2 hsp
      obtain ⟨hle2, heq2⟩ := ha2 hsp
      exact ⟨by omega, fun hq => by rw [heq2 hq, heq1]⟩

/-- A step that only appends trace events not fetching `u0`. -/
theorem GInv_keep (u0 p0 : String) (s : St) (t : List Ev)
    (ht : countFetch u0 t = 0) :
    GInv u0 p0 s ⟨s.fs, s.events ++ t⟩ := by
  refine ⟨⟨t, rfl⟩, fun _ h => h, ?_, ?_⟩
  · intro _; rw [countFetch_append, ht]; omega
  · intro _
    rw [countFetch_append, ht]
    exact ⟨by omega, fun _ => by omega⟩

/-- A step that writes some file and appends events not fetching `u0`. -/
theorem GInv_grow (u0 p0 q : String) (c : FileContent) (s : St) (t : List Ev)
    (ht : countFetch u0 t = 0) :
    GInv u0 p0 s ⟨setFs s.fs q c, s.events ++ t⟩ := by
  refine ⟨⟨t, rfl⟩, fun w h => hasFile_setFs_mono s.fs q w c h, ?_, ?_⟩
  · intro _; rw [countFetch_append, ht]; omega
  · intro _
    rw [countFetch_append, ht]
    exact ⟨by omega, fun _ => by omega⟩

/-- The step that fetches `u0` itself: it only happens when `p0` is
absent, and it writes `p0`. -/
theorem GInv_fetch_protected (u0 p0 : String) (c : FileContent) (s : St) (t : List Ev)
    (habs : hasFile s.fs p0 = false) (ht : countFetch u0 t ≤ 1) :
    GInv u0 p0 s ⟨setFs s.fs p0 c, s.events ++ t⟩ := by
  refine ⟨⟨t, rfl⟩, fun w h => hasFile_setFs_mono s.fs p0 w c h, ?_, ?_⟩
  · intro hp; rw [hp] at habs; simp at habs
  · intro _
    refine ⟨by rw [countFetch_append]; omega, ?_⟩
    intro hq
    have := hasFile_setFs_self s.fs p0 c
    rw [show (⟨setFs s.fs p0 c, s.events ++ t⟩ : St).fs = setFs s.fs p0 c from rfl] at hq
    rw [hq] at this
    simp at this

/-- One resolver call preserves the invariant, whatever its arguments at
the traversal's call sites: the protected url is only ever paired with
the protected path (`hpu`), the protected path sanitizes to itself, and
the upstream serves the protected contest. -/
theorem load_GInv (net : Net) (X : String) (d0 : Doc)
    (hnet : net (contestUrl X) = FetchOutcome.ok d0)
    (hsan : sanitizeStar (contestPath X) = contestPath X)
    (p u : String) (hpu : u = contestUrl X → p = contestPath X) (s : St) :
    GInv (contestUrl X) (contestPath X) s (load_or_download net p u s).2 := by
  cases hl : lookupFs s.fs p with
  | some fc =>
    cases fc with
    | good d => rw [load_cache_good net p u s d hl]; exact GInv_refl _ _ s
    | corrupt => rw [load_cache_corrupt net p u s hl]; exact GInv_refl _ _ s
  | none =>
    by_cases hu : u = contestUrl X
    · have hp := hpu hu
      subst hp
      subst hu
      rw [load_dl_ok net _ _ s d0 hl hnet, hsan]
      refine GInv_fetch_protected _ _ _ s _ ?_ ?_
      · unfold hasFile; rw [hl]; rfl
      · simp [countFetch]
    · cases hn : net u with
      | ok d =>
        rw [load_dl_ok net p u s d hl hn]
        exact GInv_grow _ _ _ _ s _ (by simp [countFetch, hu])
      | parseFail =>
        rw [load_dl_parseFail net p u s hl hn]
        exact GInv_keep _ _ s _ (by simp [countFetch, hu])
      | netError =>
        rw [load_dl_netError net p u s hl hn]
        exact GInv_keep _ _ s _ (by simp [countFetch, hu])

/-- A successfully resolved election return whose document has no `rs`
field propagates the `KeyError`. -/
theorem precinct_ok_badrs (net : Net) (fuel : Nat) (dir id : String) (vb : VBRef)
    (rest : List TermRef) (s s1 : St) (d : Doc) (e : Err)
    (h : load_or_download net (precinctPath dir id) (resultsUrl vb.url) s = (Except.ok d, s1))
    (hrs : getRs d = Except.error e) :
    precinctLoop net fuel dir (⟨id, [vb]⟩ :: rest) s = some (Except.error e, s1) := by
  simp only [precinctLoop]
  rw [h]
  show (match getRs d with
    | Except.error e => some (Except.error e, s1)
    | Except.ok rs =>
      match contestLoop net fuel (dedup rs) s1 with
      | none => none
      | some (Except.ok _, s2) => precinctLoop net fuel dir rest s2
      | some (Except.error e, s2) => some (Except.error e, s2)) =
    some (Except.error e, s1)
  rw [hrs]

/-- A successfully resolved election return hands its distinct contest
codes to the contest loop. -/
theorem precinct_ok (net : Net) (fuel : Nat) (dir id : String) (vb : VBRef)
    (rest : List TermRef) (s s1 : St) (d : Doc) (rs : List String)
    (h : load_or_download net (precinctPath dir id) (resultsUrl vb.url) s = (Except.ok d, s1))
    (hrs : getRs d = Except.ok rs) :
    precinctLoop net fuel dir (⟨id, [vb]⟩ :: rest) s =
      match contestLoop net fuel (dedup rs) s1 with
      | none => none
      | some (Except.ok _, s2) => precinctLoop net fuel dir rest s2
      | some (Except.error e, s2) => some (Except.error e, s2) := by
  simp only [precinctLoop]
  rw [h]
  show (match getRs d with
    | Except.error e => some (Except.error e, s1)
    | Except.ok rs =>
      match contestLoop net fuel (dedup rs) s1 with
      | none => none
      | some (Except.ok _, s2) => precinctLoop net fuel dir rest s2
      | some (Except.error e, s2) => some (Except.error e, s2)) = _
  rw [hrs]

/-- Unfolding `download_data` when the descriptor retry loop runs out
of fuel. -/
theorem dd_none (net : Net) (n : Nat) (dir url : String) (s : St)
    (hr : retryResolve net (n + 1) (infoPath dir) (infoUrl url) s = none) :
    download_data net (n + 1) dir url s = none := by
  simp only [download_data]
  rw [hr]

/-- Unfolding `download_data` when the descriptor resolution propagates
an error. -/
theorem dd_err (net : Net) (n : Nat) (dir url : String) (s s1 : St) (e : Err)
    (hr : retryResolve net (n + 1) (infoPath dir) (infoUrl url) s =
      some (Except.error e, s1)) :
    download_data net (n + 1) dir url s = some (Except.error e, s1) := by
  simp only [download_data]
  rw [hr]

/-- Unfolding `download_data` when the resolved descriptor is not a
node document (`node_info['srs']` raises). -/
theorem dd_node_err (net : Net) (n : Nat) (dir url : String) (s s1 : St)
    (doc : Doc) (e : Err)
    (hr : retryResolve net (n + 1) (infoPath dir) (infoUrl url) s =
      some (Except.ok doc, s1))
    (hgn : getNode doc = Except.error e) :
    download_data net (n + 1) dir url s = some (Except.error e, s1) := by
  simp only [download_data]
  rw [hr]
  show (match getNode doc with
    | Except.error e => some (Except.error e, s1)
    | Except.ok info =>
      match childrenLoop (fun d u st => download_data net n d u st) dir info.srs s1 with
      | none => none
      | some (Except.error e, s2) => some (Except.error e, s2)
      | some (Except.ok _, s2) => terminalPhase net (n + 1) dir info s2) =
    some (Except.error e, s1)
  rw [hgn]

/-- Unfolding `download_data` on a resolved node descriptor: recurse
into the children, then run the terminal phase. -/
theorem dd_node_ok (net : Net) (n : Nat) (dir url : String) (s s1 : St)
    (doc : Doc) (info : NodeInfo)
    (hr : retryResolve net (n + 1) (infoPath dir) (infoUrl url) s =
      some (Except.ok doc, s1))
    (hgn : getNode doc = Except.ok info) :
    download_data net (n + 1) dir url s =
      match childrenLoop (fun d u st => download_data net n d u st) dir info.srs s1 with
      | none => none
      | some (Except.error e, s2) => some (Except.error e, s2)
      | some (Except.ok _, s2) => terminalPhase net (n + 1) dir info s2 := by
  simp only [download_data]
  rw [hr]
  show (match getNode doc with
    | Except.error e => some (Except.error e, s1)
    | Except.ok info =>
      match childrenLoop (fun d u st => download_data net n d u st) dir info.srs s1 with
      | none => none
      | some (Except.error e, s2) => some (Except.error e, s2)
      | some (Except.ok _, s2) => terminalPhase net (n + 1) dir info s2) = _
  rw [hgn]

/-- The retry wrapper preserves the invariant. -/
theorem retry_GInv (net : Net) (X : String) (d0 : Doc)
    (hnet : net (contestUrl X) = FetchOutcome.ok d0)
    (hsan : sanitizeStar (contestPath X) = contestPath X)
    (p u : String) (hpu : u = contestUrl X → p = contestPath X) :
    ∀ (fuel : Nat) (s : St) (r : Except Err Doc) (s' : St),
      retryResolve net fuel p u s = some (r, s') →
      GInv (contestUrl X) (contestPath X) s s' := by
  intro fuel
  induction fuel with
  | zero => intro s r s' h; exact absurd h (by simp [retryResolve])
  | succ n ih =>
    intro s r s' h
    have hG1 := load_GInv net X d0 hnet hsan p u hpu s
    cases hload : load_or_download net p u s with
    | mk res s1 =>
      rw [hload] at hG1
      cases res with
      | ok d =>
        rw [retry_ok net n p u s s1 d hload] at h
        cases h
        exact hG1
      | error e =>
        cases hv : isValueError e with
        | true =>
          rw [retry_recoverable net n p u s s1 e hload hv] at h
          have hG2 := GInv_keep (contestUrl X) (contestPath X) s1 [Ev.sleepRetry] rfl
          exact GInv_trans _ _ s _ s' (GInv_trans _ _ s s1 _ hG1 hG2) (ih _ r s' h)
        | false =>
          rw [retry_propagate net n p u s s1 e hload hv] at h
          cases h
          exact hG1

/-- The contest loop preserves the invariant: every call site in it
pairs `contestPath c` with `contestUrl c`, and contest urls are
injective, so the protected url is only used with the protected path. -/
theorem contestLoop_GInv (net : Net) (X : String) (d0 : Doc)
    (hnet : net (contestUrl X) = FetchOutcome.ok d0)
    (hsan : sanitizeStar (contestPath X) = contestPath X) :
    ∀ (cs : List String) (fuel : Nat) (s : St) (r : Except Err Unit) (s' : St),
      contestLoop net fuel cs s = some (r, s') →
      GInv (contestUrl X) (contestPath X) s s' := by
  intro cs
  induction cs with
  | nil =>
    intro fuel s r s' h
    simp only [contestLoop] at h
    cases h
    exact GInv_refl _ _ s
  | cons c rest ih =>
    intro fuel s r s' h
    simp only [contestLoop] at h
    cases hr : retryResolve net fuel (contestPath c) (contestUrl c) s with
    | none => rw [hr] at h; cases h
    | some val =>
      obtain ⟨res, s1⟩ := val
      rw [hr] at h
      have hG1 := retry_GInv net X d0 hnet hsan (contestPath c) (contestUrl c)
        (fun hu => congrArg contestPath (contestUrl_inj c X hu)) fuel s res s1 hr
      cases res with
      | ok d => exact GInv_trans _ _ s s1 s' hG1 (ih fuel s1 r s' h)
      | error e => cases h; exact hG1

/-- The leaf terminal-data loop preserves the invariant: election
returns live under `results/`, never the protected contest url. -/
theorem precinctLoop_GInv (net : Net) (X : String) (d0 : Doc)
    (hnet : net (contestUrl X) = FetchOutcome.ok d0)
    (hsan : sanitizeStar (contestPath X) = contestPath X) (dir : String) :
    ∀ (pps : List TermRef) (fuel : Nat) (s : St) (r : Except Err Unit) (s' : St),
      precinctLoop net fuel dir pps s = some (r, s') →
      GInv (contestUrl X) (contestPath X) s s' := by
  intro pps
  induction pps with
  | nil =>
    intro fuel s r s' h
    simp only [precinctLoop] at h
    cases h
    exact GInv_refl _ _ s
  | cons p rest ih =>
    intro fuel s r s' h
    obtain ⟨id, vbs⟩ := p
    cases vbs with
    | nil =>
      rw [precinct_assert net fuel dir id [] rest s (by simp)] at h
      cases h
      exact GInv_refl _ _ s
    | cons vb tl =>
      cases tl with
      | cons vb2 tl2 =>
        rw [precinct_assert net fuel dir id _ rest s (by simp)] at h
        cases h
        exact GInv_refl _ _ s
      | nil =>
        have hG1 := load_GInv net X d0 hnet hsan
          (precinctPath dir id) (resultsUrl vb.url)
          (fun hu => absurd hu (resultsUrl_ne_contestUrl vb.url X)) s
        cases hload : load_or_download net (precinctPath dir id) (resultsUrl vb.url) s with
        | mk res s1 =>
          rw [hload] at hG1
          cases res with
          | error e =>
            cases hv : isValueError e with
            | true =>
              rw [precinct_skip net fuel dir id vb rest s s1 e hload hv] at h
              exact GInv_trans _ _ s s1 s' hG1 (ih fuel s1 r s' h)
            | false =>
              rw [precinct_propagate net fuel dir id vb rest s s1 e hload hv] at h
              cases h
              exact hG1
          | ok d =>
            cases hrs : getRs d with
            | error e =>
              rw [precinct_ok_badrs net fuel dir id vb rest s s1 d e hload hrs] at h
              cases h
              exact hG1
            | ok rs =>
              rw [precinct_ok net fuel dir id vb rest s s1 d rs hload hrs] at h
              cases hcl : contestLoop net fuel (dedup rs) s1 with
              | none => rw [hcl] at h; cases h
              | some val2 =>
                obtain ⟨res2, s2⟩ := val2
                rw [hcl] at h
                have hG2 := contestLoop_GInv net X d0 hnet hsan
                  (dedup rs) fuel s1 res2 s2 hcl
                cases res2 with
                | ok v =>
                  exact GInv_trans _ _ s s2 s'
                    (GInv_trans _ _ s s1 s2 hG1 hG2) (ih fuel s2 r s' h)
                | error e =>
                  cases h
                  exact GInv_trans _ _ s s1 s' hG1 hG2

/-- The canvass-certificate loop preserves the invariant. -/
theorem cocLoop_GInv (net : Net) (X : String) (d0 : Doc)
    (hnet : net (contestUrl X) = FetchOutcome.ok d0)
    (hsan : sanitizeStar (contestPath X) = contestPath X) (dir : String) :
    ∀ (pps : List TermRef) (s : St),
      GInv (contestUrl X) (contestPath X) s (cocLoop net dir pps s).2 := by
  intro pps
  induction pps with
  | nil => intro s; exact GInv_refl _ _ s
  | cons p rest ih =>
    intro s
    obtain ⟨id, vbs⟩ := p
    cases vbs with
    | nil =>
      rw [coc_assert net dir id [] rest s (by simp)]
      exact GInv_refl _ _ s
    | cons vb tl =>
      cases tl with
      | cons vb2 tl2 =>
        rw [coc_assert net dir id _ rest s (by simp)]
        exact GInv_refl _ _ s
      | nil =>
        have hG1 := load_GInv net X d0 hnet hsan
          (cocPath dir) (resultsUrl vb.url)
          (fun hu => absurd hu (resultsUrl_ne_contestUrl vb.url X)) s
        cases hload : load_or_download net (cocPath dir) (resultsUrl vb.url) s with
        | mk res s1 =>
          rw [hload] at hG1
          cases res with
          | error e =>
            cases hv : isValueError e with
            | true =>
              rw [coc_skip net dir id vb rest s s1 e hload hv]
              exact GInv_trans _ _ s s1 _ hG1 (ih s1)
            | false =>
              rw [coc_propagate net dir id vb rest s s1 e hload hv]
              exact hG1
          | ok d =>
            rw [coc_ok net dir id vb rest s s1 d hload]
            exact GInv_trans _ _ s s1 _ hG1 (ih s1)

/-- Terminal-data handling preserves the invariant. -/
theorem terminalPhase_GInv (net : Net) (X : String) (d0 : Doc)
    (hnet : net (contestUrl X) = FetchOutcome.ok d0)
    (hsan : sanitizeStar (contestPath X) = contestPath X)
    (fuel : Nat) (dir : String) (info : NodeInfo) (s : St) (r : Except Err Unit) (s' : St)
    (h : terminalPhase net fuel dir info s = some (r, s')) :
    GInv (contestUrl X) (contestPath X) s s' := by
  unfold terminalPhase at h
  by_cases hb : info.can = "Barangay"
  · rw [if_pos hb] at h
    exact precinctLoop_GInv net X d0 hnet hsan dir info.pps fuel s r s' h
  · rw [if_neg hb] at h
    by_cases hc : info.can = "Country" ∨ info.pps.length < 2
    · rw [if_pos hc] at h
      have hG := cocLoop_GInv net X d0 hnet hsan dir info.pps s
      cases hcl : cocLoop net dir info.pps s with
      | mk res s1 =>
        rw [hcl] at h hG
        cases h
        exact hG
    · rw [if_neg hc] at h
      cases h
      exact GInv_refl _ _ s

/-- The children loop preserves the invariant whenever the per-child
step does. -/
theorem childrenLoop_GInv (u0 p0 : String)
    (step : String → String → St → Option (Except Err Unit × St))
    (hstep : ∀ d u s r s', step d u s = some (r, s') → GInv u0 p0 s s')
    (dir : String) :
    ∀ (cs : List ChildRef) (s : St) (r : Except Err Unit) (s' : St),
      childrenLoop step dir cs s = some (r, s') → GInv u0 p0 s s' := by
  intro cs
  induction cs with
  | nil =>
    intro s r s' h
    simp only [childrenLoop] at h
    cases h
    exact GInv_refl _ _ s
  | cons ch rest ih =>
    intro s r s' h
    simp only [childrenLoop] at h
    cases hstep1 : step (pjoin [dir, replaceChar '/' '_' ch.rn]) (ch.url ++ ".json") s with
    | none => rw [hstep1] at h; cases h
    | some val =>
      obtain ⟨res, s1⟩ := val
      rw [hstep1] at h
      have hG1 := hstep _ _ s res s1 hstep1
      cases res with
      | ok v => exact GInv_trans _ _ s s1 s' hG1 (ih s1 r s' h)
      | error e => cases h; exact hG1

/-- The whole traversal preserves the single-fetch invariant for every
contest whose document the unchanged upstream serves and whose
identifier's storage path sanitizes to itself. -/
theorem download_data_GInv (net : Net) (X : String) (d0 : Doc)
    (hnet : net (contestUrl X) = FetchOutcome.ok d0)
    (hsan : sanitizeStar (contestPath X) = contestPath X) :
    ∀ (fuel : Nat) (dir url : String) (s : St) (r : Except Err Unit) (s' : St),
      download_data net fuel dir url s = some (r, s') →
      GInv (contestUrl X) (contestPath X) s s' := by
  intro fuel
  induction fuel with
  | zero => intro dir url s r s' h; exact absurd h (by simp [download_data])
  | succ n ih =>
    intro dir url s r s' h
    cases hr : retryResolve net (n + 1) (infoPath dir) (infoUrl url) s with
    | none => rw [dd_none net n dir url s hr] at h; cases h
    | some val =>
      obtain ⟨res, s1⟩ := val
      have hG1 := retry_GInv net X d0 hnet hsan (infoPath dir) (infoUrl url)
        (fun hu => absurd hu (infoUrl_ne_contestUrl url X)) (n + 1) s res s1 hr
      cases res with
      | error e =>
        rw [dd_err net n dir url s s1 e hr] at h
        cases h
        exact hG1
      | ok doc =>
        cases hgn : getNode doc with
        | error e =>
          rw [dd_node_err net n dir url s s1 doc e hr hgn] at h
          cases h
          exact hG1
        | ok info =>
          rw [dd_node_ok net n dir url s s1 doc info hr hgn] at h
          cases hcl : childrenLoop (fun d u st => download_data net n d u st)
              dir info.srs s1 with
          | none => rw [hcl] at h; cases h
          | some val2 =>
            obtain ⟨res2, s2⟩ := val2
            rw [hcl] at h
            have hG2 := childrenLoop_GInv (contestUrl X) (contestPath X)
              (fun d u st => download_data net n d u st)
              (fun d u st r2 s2' hstep => ih d u st r2 s2' hstep)
              dir info.srs s1 res2 s2 hcl
            cases res2 with
            | error e =>
              cases h
              exact GInv_trans _ _ s s1 s' hG1 hG2
            | ok v =>
              exact GInv_trans _ _ s s2 s'
                (GInv_trans _ _ s s1 s2 hG1 hG2)
                (terminalPhase_GInv net X d0 hnet hsan (n + 1) dir info s2 r s' h)

/-! ## Claim theorems -/

/-- C1: the idempotence/resumability claim fails on the code.  Against
`c1net` (a leaf root whose precinct identifier `P*1` contains a `*`), a
complete run stores the election return at the sanitized path
`data/results/P_1.json`, but the existence probe of the next run uses
the unsanitized `data/results/P*1.json`; the second run against the
unchanged upstream therefore re-fetches that resource (one network
request, not zero), even though the storage tree is already complete
and ends up byte-for-byte identical. -/
theorem c1_second_run_refetches :
    getFs (download_data c1net 3 "" "root.json" ⟨[], []⟩) = c1fs ∧
    download_data c1net 3 "" "root.json" ⟨c1fs, []⟩ =
      some (Except.ok (),
        ⟨c1fs, [Ev.fetch (resultsUrl "r1"), Ev.sleepDl,
                Ev.write "data/results/P_1.json"]⟩) ∧
    countFetch (resultsUrl "r1")
      (getEvents (download_data c1net 3 "" "root.json" ⟨c1fs, []⟩)) = 1 :=
  ⟨rfl, rfl, rfl⟩

/-- C2 counterexample: the claim says any error kind other than the
network-response JSON-parse failure propagates immediately.  But a
corrupt local file raises `JSONDecodeError` — a different error kind —
and at a terminal-data call site the `except ValueError:` handler (which
catches the `JSONDecodeError` subclass) absorbs it: the loop finishes
with success instead of propagating. -/
theorem c2_counterexample :
    load_or_download anyNet (precinctPath "" "pp") (resultsUrl "rr") c2st =
      (Except.error Err.jsonDecode, c2st) ∧
    Err.jsonDecode ≠ Err.valueError ∧
    precinctLoop anyNet 1 "" [⟨"pp", [⟨"rr"⟩]⟩] c2st = some (Except.ok (), c2st) :=
  ⟨rfl, by decide, rfl⟩

/-- C2 amended: the recoverable class is `ValueError` *including its
subclass `JSONDecodeError`*.  At node-descriptor and contest call sites
any error in that class is retried indefinitely with a `RETRY_WAIT`
sleep between attempts (in particular the loop never terminates while
the upstream response keeps failing to parse); at terminal-data call
sites a single attempt is made and an error in that class skips the
reference; error kinds outside the class propagate immediately from
every call site. -/
theorem c2_amended :
    (∀ (net : Net) (fuel : Nat) (p u : String) (s s1 : St) (d : Doc),
      load_or_download net p u s = (Except.ok d, s1) →
      retryResolve net (fuel + 1) p u s = some (Except.ok d, s1)) ∧
    (∀ (net : Net) (fuel : Nat) (p u : String) (s s1 : St) (e : Err),
      load_or_download net p u s = (Except.error e, s1) → isValueError e = true →
      retryResolve net (fuel + 1) p u s =
        retryResolve net fuel p u ⟨s1.fs, s1.events ++ [Ev.sleepRetry]⟩) ∧
    (∀ (net : Net) (fuel : Nat) (p u : String) (s s1 : St) (e : Err),
      load_or_download net p u s = (Except.error e, s1) → isValueError e = false →
      retryResolve net (fuel + 1) p u s = some (Except.error e, s1)) ∧
    (∀ (net : Net) (p u : String), net u = FetchOutcome.parseFail →
      ∀ (fuel : Nat) (s : St), lookupFs s.fs p = none →
        retryResolve net fuel p u s = none) ∧
    (∀ (net : Net) (fuel : Nat) (dir id : String) (vb : VBRef) (rest : List TermRef)
        (s s1 : St) (e : Err),
      load_or_download net (precinctPath dir id) (resultsUrl vb.url) s =
        (Except.error e, s1) → isValueError e = true →
      precinctLoop net fuel dir (⟨id, [vb]⟩ :: rest) s =
        precinctLoop net fuel dir rest s1) ∧
    (∀ (net : Net) (fuel : Nat) (dir id : String) (vb : VBRef) (rest : List TermRef)
        (s s1 : St) (e : Err),
      load_or_download net (precinctPath dir id) (resultsUrl vb.url) s =
        (Except.error e, s1) → isValueError e = false →
      precinctLoop net fuel dir (⟨id, [vb]⟩ :: rest) s = some (Except.error e, s1)) ∧
    (∀ (net : Net) (dir id : String) (vb : VBRef) (rest : List TermRef)
        (s s1 : St) (e : Err),
      load_or_download net (cocPath dir) (resultsUrl vb.url) s =
        (Except.error e, s1) → isValueError e = true →
      cocLoop net dir (⟨id, [vb]⟩ :: rest) s = cocLoop net dir rest s1) ∧
    (∀ (net : Net) (dir id : String) (vb : VBRef) (rest : List TermRef)
        (s s1 : St) (e : Err),
      load_or_download net (cocPath dir) (resultsUrl vb.url) s =
        (Except.error e, s1) → isValueError e = false →
      cocLoop net dir (⟨id, [vb]⟩ :: rest) s = (Except.error e, s1)) :=
  ⟨fun net fuel p u s s1 d h => retry_ok net fuel p u s s1 d h,
   fun net fuel p u s s1 e h hv => retry_recoverable net fuel p u s s1 e h hv,
   fun net fuel p u s s1 e h hv => retry_propagate net fuel p u s s1 e h hv,
   fun net p u h2 fuel s h1 => retry_stuck_parseFail net p u h2 fuel s h1,
   fun net fuel dir id vb rest s s1 e h hv => precinct_skip net fuel dir id vb rest s s1 e h hv,
   fun net fuel dir id vb rest s s1 e h hv => precinct_propagate net fuel dir id vb rest s s1 e h hv,
   fun net dir id vb rest s s1 e h hv => coc_skip net dir id vb rest s s1 e h hv,
   fun net dir id vb rest s s1 e h hv => coc_propagate net dir id vb rest s s1 e h hv⟩

theorem c2_witness :
    retryResolve parseNet 1 "wp" "wu" ⟨[], []⟩ =
      retryResolve parseNet 0 "wp" "wu" ⟨[], [Ev.fetch "wu", Ev.sleepRetry]⟩ ∧
    retryResolve parseNet 5 "wq" "wv" ⟨[], []⟩ = none :=
  ⟨c2_amended.2.1 parseNet 0 "wp" "wu" ⟨[], []⟩ ⟨[], [Ev.fetch "wu"]⟩ Err.valueError rfl rfl,
   c2_amended.2.2.2.1 parseNet "wq" "wv" rfl 5 ⟨[], []⟩ rfl⟩

/-- C3: on a cache hit the resolver returns the parsed file content and
the state is returned untouched — no network fetch, no sleep, no write,
no deletion. -/
theorem c3_cache_hit_pure (net : Net) (p u : String) (s : St) (d : Doc)
    (h : lookupFs s.fs p = some (FileContent.good d)) :
    load_or_download net p u s = (Except.ok d, s) :=
  load_cache_good net p u s d h

theorem c3_witness :
    load_or_download anyNet "data/results/info.json" "whatever"
      ⟨[("data/results/info.json", FileContent.good (Doc.er ["k"]))], []⟩ =
      (Except.ok (Doc.er ["k"]),
       ⟨[("data/results/info.json", FileContent.good (Doc.er ["k"]))], []⟩) :=
  c3_cache_hit_pure anyNet "data/results/info.json" "whatever"
    ⟨[("data/results/info.json", FileContent.good (Doc.er ["k"]))], []⟩ (Doc.er ["k"]) rfl

/-- C4 counterexample: the claim says local corruption is surfaced as a
non-retryable error which the retrying call sites do not retry.  In the
code `json.load` raises `JSONDecodeError`, which *is* a `ValueError`
subclass, so the descriptor-site retry loop catches it and retries
forever (the loop is still running after any amount of fuel instead of
propagating the error). -/
theorem c4_counterexample :
    load_or_download anyNet (infoPath "") (infoUrl "root.json") c4st =
      (Except.error Err.jsonDecode, c4st) ∧
    retryResolve anyNet 3 (infoPath "") (infoUrl "root.json") c4st = none :=
  ⟨rfl, rfl⟩

/-- C4 amended: a corrupt local file raises `JSONDecodeError`, an error
type distinct from the `ValueError('Results not available.')` used for
the not-yet-available condition — but `JSONDecodeError` subclasses
`ValueError`, so the `except ValueError` handlers treat it exactly like
the recoverable condition: the retrying call sites retry it
indefinitely (the file never changes, so the loop never ends) and the
terminal-data call sites skip the reference. -/
theorem c4_amended :
    (∀ (net : Net) (p u : String) (s : St),
      lookupFs s.fs p = some FileContent.corrupt →
      load_or_download net p u s = (Except.error Err.jsonDecode, s)) ∧
    Err.jsonDecode ≠ Err.valueError ∧
    isValueError Err.jsonDecode = true ∧
    (∀ (net : Net) (fuel : Nat) (p u : String) (s : St),
      lookupFs s.fs p = some FileContent.corrupt →
      retryResolve net fuel p u s = none) ∧
    (∀ (net : Net) (fuel : Nat) (dir id : String) (vb : VBRef)
        (rest : List TermRef) (s : St),
      lookupFs s.fs (precinctPath dir id) = some FileContent.corrupt →
      precinctLoop net fuel dir (⟨id, [vb]⟩ :: rest) s =
        precinctLoop net fuel dir rest s) :=
  ⟨fun net p u s h => load_cache_corrupt net p u s h,
   by decide,
   rfl,
   fun net fuel p u s h => retry_stuck_corrupt net p u fuel s h,
   fun net fuel dir id vb rest s h =>
     precinct_skip net fuel dir id vb rest s s Err.jsonDecode
       (load_cache_corrupt net _ _ s h) rfl⟩

theorem c4_witness :
    load_or_download anyNet "w/x.json" "wu" ⟨[("w/x.json", FileContent.corrupt)], []⟩ =
      (Except.error Err.jsonDecode, ⟨[("w/x.json", FileContent.corrupt)], []⟩) ∧
    retryResolve anyNet 7 "w/x.json" "wu" ⟨[("w/x.json", FileContent.corrupt)], []⟩ = none :=
  ⟨c4_amended.1 anyNet "w/x.json" "wu" ⟨[("w/x.json", FileContent.corrupt)], []⟩ rfl,
   c4_amended.2.2.2.1 anyNet 7 "w/x.json" "wu" ⟨[("w/x.json", FileContent.corrupt)], []⟩ rfl⟩

/-- C5 counterexample: on a cache miss whose response fails to parse,
the code runs `sess.get(url).json()`, whose parse failure jumps to the
handler *before* `time.sleep(download_delay)` is reached: the trace
records the fetch but no download-delay sleep, contradicting "the delay
occurs on both the success path and the parse-failure path". -/
theorem c5_counterexample :
    (load_or_download parseNet "pa" "ua" ⟨[], []⟩).2.events = [Ev.fetch "ua"] ∧
    Ev.sleepDl ∉ [Ev.fetch "ua"] :=
  ⟨rfl, by decide⟩

/-- C5 amended: the fixed minimum delay is applied after the fetch only
on the success path (response parses, then sleep, then write); on the
parse-failure path the error is raised before the sleep, so only the
fetch is recorded. -/
theorem c5_amended :
    (∀ (net : Net) (p u : String) (s : St) (d : Doc),
      lookupFs s.fs p = none → net u = FetchOutcome.ok d →
      (load_or_download net p u s).2.events =
        s.events ++ [Ev.fetch u, Ev.sleepDl, Ev.write (sanitizeStar p)]) ∧
    (∀ (net : Net) (p u : String) (s : St),
      lookupFs s.fs p = none → net u = FetchOutcome.parseFail →
      (load_or_download net p u s).2.events = s.events ++ [Ev.fetch u]) := by
  constructor
  · intro net p u s d h1 h2
    rw [load_dl_ok net p u s d h1 h2]
  · intro net p u s h1 h2
    rw [load_dl_parseFail net p u s h1 h2]

theorem c5_witness :
    (load_or_download c9net (infoPath "") (infoUrl "root.json") ⟨[], []⟩).2.events =
      [] ++ [Ev.fetch (infoUrl "root.json"), Ev.sleepDl,
             Ev.write (sanitizeStar (infoPath ""))] ∧
    (load_or_download parseNet "pw" "uw" ⟨[], []⟩).2.events = [] ++ [Ev.fetch "uw"] :=
  ⟨c5_amended.1 c9net (infoPath "") (infoUrl "root.json") ⟨[], []⟩
     (Doc.node ⟨[], "Country", []⟩) rfl rfl,
   c5_amended.2 parseNet "pw" "uw" ⟨[], []⟩ rfl rfl⟩

/-- C6: cache miss whose response fails to parse: the resolver raises
the recoverable `ValueError` and writes nothing — the storage tree is
exactly the one it started with. -/
theorem c6_not_available_no_write (net : Net) (p u : String) (s : St)
    (h1 : lookupFs s.fs p = none) (h2 : net u = FetchOutcome.parseFail) :
    load_or_download net p u s =
      (Except.error Err.valueError, { s with events := s.events ++ [Ev.fetch u] }) ∧
    (load_or_download net p u s).2.fs = s.fs ∧
    isValueError Err.valueError = true := by
  refine ⟨load_dl_parseFail net p u s h1 h2, ?_, rfl⟩
  rw [load_dl_parseFail net p u s h1 h2]

theorem c6_witness :
    load_or_download parseNet "q6" "v6" ⟨[], []⟩ =
      (Except.error Err.valueError, ⟨[], [] ++ [Ev.fetch "v6"]⟩) ∧
    (load_or_download parseNet "q6" "v6" ⟨[], []⟩).2.fs = ([] : List (String × FileContent)) ∧
    isValueError Err.valueError = true :=
  c6_not_available_no_write parseNet "q6" "v6" ⟨[], []⟩ rfl rfl

/-- C7: the data-integrity assertions.  A terminal-data reference whose
voting-board list is not a singleton hits
`assert len(...['vbs']) == 1` (before any fetch, with no state change)
in both the leaf and the canvass-certificate loop; a node that is
neither `Barangay` nor `Country` with two or more terminal-data
references hits the assertion at the start of the non-leaf branch; and
`AssertionError` is outside the `ValueError` class, so no handler in
the program absorbs it — it is fatal, not recoverable. -/
theorem c7_assertions :
    (∀ (net : Net) (fuel : Nat) (dir id : String) (vbs : List VBRef)
        (rest : List TermRef) (s : St), vbs.length ≠ 1 →
      precinctLoop net fuel dir (⟨id, vbs⟩ :: rest) s =
        some (Except.error Err.assertionError, s)) ∧
    (∀ (net : Net) (dir id : String) (vbs : List VBRef)
        (rest : List TermRef) (s : St), vbs.length ≠ 1 →
      cocLoop net dir (⟨id, vbs⟩ :: rest) s = (Except.error Err.assertionError, s)) ∧
    (∀ (net : Net) (fuel : Nat) (dir : String) (info : NodeInfo) (s : St),
      info.can ≠ "Barangay" → info.can ≠ "Country" → 2 ≤ info.pps.length →
      terminalPhase net fuel dir info s = some (Except.error Err.assertionError, s)) ∧
    isValueError Err.assertionError = false :=
  ⟨fun net fuel dir id vbs rest s hv => precinct_assert net fuel dir id vbs rest s hv,
   fun net dir id vbs rest s hv => coc_assert net dir id vbs rest s hv,
   fun net fuel dir info s h1 h2 h3 => terminal_assert net fuel dir info s h1 h2 h3,
   rfl⟩

theorem c7_witness :
    precinctLoop anyNet 1 "" [⟨"z", []⟩] ⟨[], []⟩ =
      some (Except.error Err.assertionError, ⟨[], []⟩) ∧
    cocLoop anyNet "" [⟨"z", [⟨"a"⟩, ⟨"b"⟩]⟩] ⟨[], []⟩ =
      (Except.error Err.assertionError, ⟨[], []⟩) ∧
    terminalPhase anyNet 1 ""
      ⟨[], "Region", [⟨"t1", [⟨"v1"⟩]⟩, ⟨"t2", [⟨"v2"⟩]⟩]⟩ ⟨[], []⟩ =
      some (Except.error Err.assertionError, ⟨[], []⟩) :=
  ⟨c7_assertions.1 anyNet 1 "" "z" [] [] ⟨[], []⟩ (by decide),
   c7_assertions.2.1 anyNet "" "z" [⟨"a"⟩, ⟨"b"⟩] [] ⟨[], []⟩ (by decide),
   c7_assertions.2.2.1 anyNet 1 "" ⟨[], "Region", [⟨"t1", [⟨"v1"⟩]⟩, ⟨"t2", [⟨"v2"⟩]⟩]⟩
     ⟨[], []⟩ (by decide) (by decide) (by decide)⟩

/-- C9: the `--base-dir` option has no effect.  `main` only rebinds a
local variable `BASE_DIR = 'data'`; the traversal reads the module
constant, so every run stores its files under `data/` regardless of the
option value: two runs with different `--base-dir` values are
literally the same computation, and a run with `--base-dir custom`
still writes `data/results/info.json`. -/
theorem c9_base_dir_ignored :
    (∀ (b1 b2 : String) (net : Net) (fuel : Nat),
      main_run b1 net fuel = main_run b2 net fuel) ∧
    getFs (main_run "custom" c9net 2) =
      [("data/results/info.json",
        FileContent.good (Doc.node ⟨[], "Country", []⟩))] :=
  ⟨fun _ _ _ _ => rfl, rfl⟩

/-- C10 counterexample: a `Country` node whose storage directory
contains a `*` (here via a child named `X*`; child-name sanitization
only replaces `/`).  The first canvass-certificate reference is fetched
and persisted at the `*`-sanitized path, so the existence probe for the
second reference misses and its own network locator *is* fetched —
contradicting "every subsequent reference is answered from that cached
file without its own network locator ever being fetched". -/
theorem c10_counterexample :
    countFetch (resultsUrl "c1") (getEvents c10run) = 1 ∧
    countFetch (resultsUrl "c2") (getEvents c10run) = 1 ∧
    lookupFs (getFs c10run) "data/results/X_/coc.json" =
      some (FileContent.good (Doc.other "coc2")) ∧
    c10run.isSome = true :=
  ⟨rfl, rfl, rfl, rfl⟩

/-- C10 amended: all terminal-data references of a non-leaf node resolve
to the single storage path `<node>/coc.json`; *provided that path
contains no `*`*, once a reference has been successfully resolved the
file exists at the probed path, so every later reference is answered
from it with no fetch; a failed attempt just records its single fetch
and moves on. -/
theorem c10_amended :
    (∀ (net : Net) (dir : String) (pps : List TermRef) (s : St) (d : Doc),
      lookupFs s.fs (cocPath dir) = some (FileContent.good d) →
      (∀ p ∈ pps, p.vbs.length = 1) →
      cocLoop net dir pps s = (Except.ok (), s)) ∧
    (∀ (net : Net) (dir id : String) (vb : VBRef) (rest : List TermRef)
        (s : St) (d : Doc),
      lookupFs s.fs (cocPath dir) = none →
      sanitizeStar (cocPath dir) = cocPath dir →
      net (resultsUrl vb.url) = FetchOutcome.ok d →
      (∀ p ∈ rest, p.vbs.length = 1) →
      cocLoop net dir (⟨id, [vb]⟩ :: rest) s =
        (Except.ok (),
         ⟨setFs s.fs (cocPath dir) (FileContent.good d),
          s.events ++ [Ev.fetch (resultsUrl vb.url), Ev.sleepDl,
                       Ev.write (cocPath dir)]⟩)) ∧
    (∀ (net : Net) (dir id : String) (vb : VBRef) (rest : List TermRef) (s : St),
      lookupFs s.fs (cocPath dir) = none →
      net (resultsUrl vb.url) = FetchOutcome.parseFail →
      cocLoop net dir (⟨id, [vb]⟩ :: rest) s =
        cocLoop net dir rest ⟨s.fs, s.events ++ [Ev.fetch (resultsUrl vb.url)]⟩) :=
  ⟨fun net dir pps s d h hv => coc_cached net dir pps s d h hv,
   fun net dir id vb rest s d habs hsan hnet hrest =>
     coc_first_success net dir id vb rest s d habs hsan hnet hrest,
   fun net dir id vb rest s habs hnet =>
     coc_skip net dir id vb rest s _ Err.valueError
       (load_dl_parseFail net _ _ s habs hnet) rfl⟩

theorem c10_witness :
    cocLoop anyNet "D" [⟨"t", [⟨"vv"⟩]⟩, ⟨"t2", [⟨"ww"⟩]⟩]
      ⟨[(cocPath "D", FileContent.good (Doc.other "c"))], []⟩ =
      (Except.ok (), ⟨[(cocPath "D", FileContent.good (Doc.other "c"))], []⟩) :=
  c10_amended.1 anyNet "D" [⟨"t", [⟨"vv"⟩]⟩, ⟨"t2", [⟨"ww"⟩]⟩]
    ⟨[(cocPath "D", FileContent.good (Doc.other "c"))], []⟩ (Doc.other "c") rfl (by decide)

/-- C8 counterexample: two leaves reference the same contest `7*7`,
whose identifier contains a `*`.  The first resolution fetches and
persists the document at the sanitized `data/contests/7_7.json`, so the
second leaf's probe of `data/contests/7*7.json` misses and the contest
is fetched a second time — the traversal issues two network fetches for
this contest, not one, and no file is ever created at the claimed flat
path `contests/7*7.json`. -/
theorem c8_counterexample :
    countFetch (contestUrl "7*7") (getEvents c8badrun) = 2 ∧
    hasFile (getFs c8badrun) (contestPath "7*7") = false ∧
    hasFile (getFs c8badrun) "data/contests/7_7.json" = true ∧
    c8badrun.isSome = true :=
  ⟨rfl, rfl, rfl, rfl⟩

/-- C8 amended: for a contest identifier `X` whose storage path
sanitizes to itself (no `*`) and whose document the unchanged upstream
serves, any terminating run of the traversal, from any starting state,
fetches `X`'s url at most once beyond what the trace already contained
(zero times if the file is already present, and zero times whenever the
file is still absent afterwards — i.e. a fetch happens only by creating
the file, after which every later reference cache-hits).  On the
specification's end-to-end scenario — one leaf whose election return
lists contest `700` twice — the full run fetches `contests/700.json`
exactly once and persists it at the flat contest path. -/
theorem c8_amended :
    (∀ (net : Net) (X : String) (d0 : Doc) (fuel : Nat) (dir url : String)
        (s : St) (r : Except Err Unit) (s' : St),
      net (contestUrl X) = FetchOutcome.ok d0 →
      sanitizeStar (contestPath X) = contestPath X →
      download_data net fuel dir url s = some (r, s') →
      (hasFile s.fs (contestPath X) = true →
        countFetch (contestUrl X) s'.events = countFetch (contestUrl X) s.events) ∧
      (hasFile s.fs (contestPath X) = false →
        countFetch (contestUrl X) s'.events ≤ countFetch (contestUrl X) s.events + 1 ∧
        (hasFile s'.fs (contestPath X) = false →
          countFetch (contestUrl X) s'.events = countFetch (contestUrl X) s.events))) ∧
    countFetch (contestUrl "700") (getEvents c8run) = 1 ∧
    lookupFs (getFs c8run) (contestPath "700") =
      some (FileContent.good (Doc.other "contest700")) ∧
    c8run.isSome = true := by
  refine ⟨?_, rfl, rfl, rfl⟩
  intro net X d0 fuel dir url s r s' hnet hsan h
  have hG := download_data_GInv net X d0 hnet hsan fuel dir url s r s' h
  exact ⟨hG.2.2.1, hG.2.2.2⟩

theorem c8_witness :
    countFetch (contestUrl "700") c8finSt.events ≤
      countFetch (contestUrl "700") (St.mk [] []).events + 1 :=
  ((c8_amended.1 c8net "700" (Doc.other "contest700") 3 "" "root.json"
      ⟨[], []⟩ (Except.ok ()) c8finSt rfl rfl rfl).2 rfl).1
